import Mathlib

/-!
# Voice chat relay server: registry and broadcast relay

A shallow embedding of `src/server.cpp` (class `VoiceServer`).  The server keeps a
vector of heap-allocated `Client` objects, one per connection whose handshake
succeeded.  Every operation is a function from the server state (and the outcomes of
the system calls it performs) to the new state together with the list of externally
visible effects it issued, in program order; an operation that can reach
`std::terminate` yields a `Run`, which is either a return or the termination of the
process.

Conventions of the embedding:

* a socket is an `Int`; `INVALID_SOCKET_HANDLE` is `-1` (the POSIX branch of the source);
* a byte is a `Nat` below 256; the `std::vector<float>` audio buffer is represented by
  its object representation, a list of `FRAMES_PER_BUFFER * CHANNELS * sizeof(float)`
  bytes, which is what `recv` fills and `send` transmits;
* a `Client*` is the address of the object, a `Nat`; the object it points to carries
  that address in the field `ptr`;
* `recv`, `accept` and `send` outcomes are inputs supplied by the environment;
* operations on `std::thread` are recorded as effects and follow the C++ standard where
  they end the process: `join` called on the calling thread itself throws
  `std::system_error`, which nothing in the source catches, and the destructor of a
  joinable `std::thread` calls `std::terminate`; the interleaving of threads is outside
  the embedding.
-/

namespace VoiceChat

/-! ## Constants and data model -/

/-- The POSIX socket type of the source: `typedef int SocketType`. -/
abbrev SocketType := Int

/-- The source's `#define INVALID_SOCKET_HANDLE -1`. -/
def INVALID_SOCKET_HANDLE : SocketType := -1

/-- The source's `const int FRAMES_PER_BUFFER = 1024`. -/
def FRAMES_PER_BUFFER : Nat := 1024

/-- The source's `const int CHANNELS = 1`. -/
def CHANNELS : Nat := 1

/-- The value of `sizeof(float)`. -/
def SIZEOF_FLOAT : Nat := 4

/-- The byte length handed to `recv` and `send` for the audio buffer:
`audio_buffer.size() * sizeof(float)`. -/
def AUDIO_BUFFER_BYTES : Nat := FRAMES_PER_BUFFER * CHANNELS * SIZEOF_FLOAT

/-- The source's `struct Client`.  `ptr` is the address of the heap object (the value of
`client.get()`); `receive_thread` is `true` when the `std::thread` member is joinable. -/
structure Client where
  ptr : Nat
  socket : SocketType
  name : List Nat
  receive_thread : Bool
deriving DecidableEq, Repr

/-- Externally visible effects, in the order the program issues them. -/
inductive Event where
  /-- A call `send(sock, data, data.length, 0)` that returned `ret`. -/
  | send (sock : SocketType) (data : List Nat) (ret : Int)
  /-- A call `CLOSE_SOCKET(sock)`. -/
  | close (sock : SocketType)
  /-- A line written to `std::cout`: a literal followed by a byte string. -/
  | cout (text : String) (arg : List Nat)
  /-- A line written to `std::cerr`. -/
  | cerr (text : String)
  /-- Construction of the receive thread running `handleClient` on the object at `ptr`. -/
  | spawn (ptr : Nat)
  /-- A call `receive_thread.join()` on the object at `ptr`. -/
  | join (ptr : Nat)
  /-- A call `accept_thread.join()`. -/
  | joinAccept
deriving DecidableEq, Repr

/-- The data members of `VoiceServer`.  `accept_thread` is `true` when the thread member
is joinable. -/
structure VoiceServer where
  clients : List Client
  server_socket : SocketType
  is_running : Bool
  accept_thread : Bool
deriving DecidableEq, Repr

/-- The course of an operation that may end the process: it returns a value after issuing
`trace`, or `std::terminate` is called after `trace` was issued. -/
inductive Run (α : Type) where
  | returned (val : α) (trace : List Event)
  | terminated (trace : List Event)
deriving DecidableEq, Repr

/-- The effects issued in the course of an operation. -/
def Run.trace {α : Type} : Run α → List Event
  | Run.returned _ tr => tr
  | Run.terminated tr => tr

/-- The course of an operation preceded by the effects `ev`. -/
def Run.after {α : Type} (ev : List Event) : Run α → Run α
  | Run.returned v tr => Run.returned v (ev ++ tr)
  | Run.terminated tr => Run.terminated (ev ++ tr)

/-- The outcome of one `recv` call: its return value and the bytes the peer delivered.
`recv` stores the first `ret` of them at the start of the buffer when `ret > 0`. -/
structure RecvResult where
  ret : Int
  bytes : List Nat
deriving DecidableEq, Repr

/-- The bytes `recv` stored: the first `ret` delivered bytes, none when `ret ≤ 0`. -/
def RecvResult.stored (r : RecvResult) : List Nat :=
  r.bytes.take r.ret.toNat

/-- The buffer contents after `recv` wrote into a buffer holding `buf`: the stored bytes
overwrite the start of the buffer and the rest keeps its previous contents. -/
def recvInto (buf : List Nat) (r : RecvResult) : List Nat :=
  r.stored ++ buf.drop r.stored.length

/-- Conversion of a NUL-terminated `char` array to `std::string`: the bytes before
the first NUL. -/
def cString (buf : List Nat) : List Nat :=
  buf.takeWhile (fun b => b != 0)

/-! ## Operations of `VoiceServer` -/

/-- The source's `VoiceServer::start`. -/
def start (s : VoiceServer) : VoiceServer :=
  { s with is_running := true, accept_thread := true }

/-- The `CLOSE_SOCKET` guarded by the test against `INVALID_SOCKET_HANDLE`. -/
def closeIfValid (sock : SocketType) : List Event :=
  if sock ≠ INVALID_SOCKET_HANDLE then [Event.close sock] else []

/-- The loop of `stop` over the registry (lines 112-116): one guarded close per entry. -/
def closeClients : List Client → List Event
  | [] => []
  | c :: rest => closeIfValid c.socket ++ closeClients rest

/-- The source's `VoiceServer::stop`: clears the flag, closes the listening socket, closes
every registered connection and runs `clients.clear()`, then joins the accept thread.
`clients.clear()` destroys the `Client` objects: when one of them holds a joinable
`receive_thread`, its destructor calls `std::terminate`. -/
def stop (s : VoiceServer) : Run VoiceServer :=
  if s.clients.any (fun c => c.receive_thread) then
    Run.terminated (closeIfValid s.server_socket ++ closeClients s.clients)
  else
    Run.returned { s with is_running := false, clients := [], accept_thread := false }
      (closeIfValid s.server_socket ++ closeClients s.clients ++
        (if s.accept_thread then [Event.joinAccept] else []))

/-- The loop of `broadcastAudio` (lines 191-198) over the entries from position `i` on.
`send_ret j` is the return value of the `send` issued for the entry at position `j`; the
source discards it. -/
def broadcastLoop (audio_data : List Nat) (sender_socket : SocketType)
    (send_ret : Nat → Int) : Nat → List Client → List Event
  | _, [] => []
  | i, c :: rest =>
    (if c.socket ≠ sender_socket ∧ c.socket ≠ INVALID_SOCKET_HANDLE then
        [Event.send c.socket audio_data (send_ret i)]
      else []) ++ broadcastLoop audio_data sender_socket send_ret (i + 1) rest

/-- The source's `VoiceServer::broadcastAudio`. -/
def broadcastAudio (s : VoiceServer) (audio_data : List Nat) (sender_socket : SocketType)
    (send_ret : Nat → Int) : VoiceServer × List Event :=
  (s, broadcastLoop audio_data sender_socket send_ret 0 s.clients)

/-- The loop of `removeClient` (lines 204-219) on the entries of the registry.  The entry
whose address is `p` is the object `client_to_remove` points to, so its `name`,
`receive_thread` and `socket` are those of the entry.  `removeClient` is private and its
only call is the one that ends `handleClient(client)`, which runs on
`client->receive_thread`: when that thread is joinable, `receive_thread.join()` is a join
of the calling thread with itself, which throws `std::system_error`; the exception is not
caught, so the process terminates before the socket is closed and the entry erased. -/
def removeLoop (p : Nat) : List Client → Run (List Client)
  | [] => Run.returned [] []
  | c :: rest =>
    if c.ptr = p then
      if c.receive_thread then
        Run.terminated [Event.cout "Client disconnected: " c.name, Event.join c.ptr]
      else
        Run.returned rest
          ([Event.cout "Client disconnected: " c.name] ++ closeIfValid c.socket)
    else
      match removeLoop p rest with
      | Run.returned cs tr => Run.returned (c :: cs) tr
      | Run.terminated tr => Run.terminated tr

/-- The source's `VoiceServer::removeClient`, called with the address `client_to_remove`
by the receive thread of that object. -/
def removeClient (s : VoiceServer) (client_to_remove : Nat) : Run VoiceServer :=
  match removeLoop client_to_remove s.clients with
  | Run.returned cs tr => Run.returned { s with clients := cs } tr
  | Run.terminated tr => Run.terminated tr

/-- What the environment supplies to one iteration of the accept loop: the value returned
by `accept`, the address returned by `std::make_unique<Client>()`, and the outcome of the
handshake `recv`. -/
structure AcceptInput where
  client_socket : SocketType
  ptr : Nat
  handshake : RecvResult
deriving DecidableEq, Repr

/-- The body of the `while` loop of `acceptClients` (lines 132-165). -/
def acceptIteration (s : VoiceServer) (i : AcceptInput) : VoiceServer × List Event :=
  if i.client_socket = INVALID_SOCKET_HANDLE then
    (s, if s.is_running then [Event.cerr "Accept failed"] else [])
  else if 0 < i.handshake.ret then
    let name_buffer := i.handshake.stored ++ [0]
    let client : Client :=
      { ptr := i.ptr, socket := i.client_socket, name := cString name_buffer,
        receive_thread := true }
    ({ s with clients := s.clients ++ [client] },
     [Event.spawn i.ptr, Event.cout "Client connected: " (cString name_buffer)])
  else
    (s, [Event.close i.client_socket])

/-- The source's `VoiceServer::acceptClients` run over a finite script of connection
attempts: the loop guard reads `is_running` before every iteration.  The result is the
state reached, and the effects issued, when the guard fails or the script is used up (the
thread is then blocked in `accept`). -/
def acceptClients : VoiceServer → List AcceptInput → VoiceServer × List Event
  | s, [] => (s, [])
  | s, i :: rest =>
    if s.is_running then
      ((acceptClients (acceptIteration s i).1 rest).1,
       (acceptIteration s i).2 ++ (acceptClients (acceptIteration s i).1 rest).2)
    else (s, [])

/-- What the environment supplies to one iteration of the relay loop: the outcome of the
`recv` on the client's connection and the return values of the sends of the broadcast. -/
structure RelayInput where
  recv : RecvResult
  send_ret : Nat → Int

/-- The `while` loop of `handleClient` (lines 172-183) over a finite script of reads,
starting with buffer contents `audio_buffer`.  `none` means that the script is used up
while the loop is still running (the thread is blocked in `recv`); otherwise the state and
buffer at loop exit and the effects issued. -/
def relayLoop (client : Client) :
    VoiceServer → List Nat → List RelayInput → Option (VoiceServer × List Nat × List Event)
  | s, audio_buffer, [] =>
    if s.is_running then none else some (s, audio_buffer, [])
  | s, audio_buffer, i :: rest =>
    if s.is_running then
      if i.recv.ret ≤ 0 then
        some (s, recvInto audio_buffer i.recv, [])
      else
        match relayLoop client
            (broadcastAudio s (recvInto audio_buffer i.recv) client.socket i.send_ret).1
            (recvInto audio_buffer i.recv) rest with
        | none => none
        | some (s2, buf2, ev) =>
          some (s2, buf2,
            (broadcastAudio s (recvInto audio_buffer i.recv) client.socket i.send_ret).2 ++ ev)
    else some (s, audio_buffer, [])

/-- The initial contents of `std::vector<float> audio_buffer(FRAMES_PER_BUFFER * CHANNELS)`:
value-initialised floats, all bytes zero. -/
def initialAudioBuffer : List Nat :=
  List.replicate AUDIO_BUFFER_BYTES 0

/-- The source's `VoiceServer::handleClient` on the object `client`, run by
`client->receive_thread`: the relay loop followed by `removeClient(client)`.  `none` when
the loop has not exited within the script. -/
def handleClient (s : VoiceServer) (client : Client) (script : List RelayInput) :
    Option (Run VoiceServer) :=
  match relayLoop client s initialAudioBuffer script with
  | none => none
  | some (s1, _, ev) => some (Run.after ev (removeClient s1 client.ptr))

/-! ## Observations on effect traces -/

/-- The payloads of the sends issued to socket `sock`, in order. -/
def sendsTo (sock : SocketType) : List Event → List (List Nat)
  | [] => []
  | Event.send k d _ :: rest => if k = sock then d :: sendsTo sock rest else sendsTo sock rest
  | _ :: rest => sendsTo sock rest

/-- The sockets to which a send was issued, in order. -/
def recipients : List Event → List SocketType
  | [] => []
  | Event.send k _ _ :: rest => k :: recipients rest
  | _ :: rest => recipients rest

/-- The sockets that were closed, in order. -/
def closed : List Event → List SocketType
  | [] => []
  | Event.close k :: rest => k :: closed rest
  | _ :: rest => closed rest

/-- Whether an effect is a line written to `std::cout` or `std::cerr`. -/
def Event.isLog : Event → Bool
  | Event.cout _ _ => true
  | Event.cerr _ => true
  | _ => false

/-- The sockets held by the registry entries, in order. -/
def sockets (cs : List Client) : List SocketType := cs.map Client.socket

/-- The addresses of the registry entries, in order. -/
def pointers (cs : List Client) : List Nat := cs.map Client.ptr

/-- The registry is a `std::vector<std::unique_ptr<Client>>`: each entry owns its own
object, so the addresses are pairwise distinct. -/
def UniqueOwnership (s : VoiceServer) : Prop := (pointers s.clients).Nodup

instance (s : VoiceServer) : Decidable (UniqueOwnership s) := by
  unfold UniqueOwnership; infer_instance

/-- Every registry entry holds a valid socket handle. -/
def ValidConnections (s : VoiceServer) : Prop :=
  ∀ c ∈ s.clients, c.socket ≠ INVALID_SOCKET_HANDLE

instance (s : VoiceServer) : Decidable (ValidConnections s) := by
  unfold ValidConnections; infer_instance

/-- The registry entries hold pairwise distinct socket handles. -/
def DistinctConnections (s : VoiceServer) : Prop := (sockets s.clients).Nodup

instance (s : VoiceServer) : Decidable (DistinctConnections s) := by
  unfold DistinctConnections; infer_instance

/-- Whether an accept-loop iteration obtained a connection and a handshake of at least
one byte. -/
def AcceptInput.handshakeSucceeded (i : AcceptInput) : Bool :=
  decide (i.client_socket ≠ INVALID_SOCKET_HANDLE ∧ 0 < i.handshake.ret)

/-- The `Client` object an accept-loop iteration constructs after a successful handshake
(lines 152-159). -/
def AcceptInput.entry (i : AcceptInput) : Client :=
  { ptr := i.ptr, socket := i.client_socket, name := cString (i.handshake.stored ++ [0]),
    receive_thread := true }

/-! ## Example registry: clients A, B, C connected in this order -/

/-- Client A: object at address 100 on socket 5. -/
def clientA : Client := { ptr := 100, socket := 5, name := [65], receive_thread := true }

/-- Client B: object at address 200 on socket 6. -/
def clientB : Client := { ptr := 200, socket := 6, name := [66], receive_thread := true }

/-- Client C: object at address 300 on socket 7. -/
def clientC : Client := { ptr := 300, socket := 7, name := [67], receive_thread := true }

/-- A running server, listening on socket 3, with A, B and C registered in this order. -/
def serverABC : VoiceServer :=
  { clients := [clientA, clientB, clientC], server_socket := 3, is_running := true,
    accept_thread := true }

/-- A running server, listening on socket 3, with no client registered. -/
def serverEmpty : VoiceServer :=
  { clients := [], server_socket := 3, is_running := true, accept_thread := true }

/-- The connections of A, B and C as the accept loop receives them. -/
def connectABC : List AcceptInput :=
  [⟨5, 100, ⟨1, [65]⟩⟩, ⟨6, 200, ⟨1, [66]⟩⟩, ⟨7, 300, ⟨1, [67]⟩⟩]

/-! ## Auxiliary facts about the loops -/

theorem sendsTo_append (k : SocketType) (xs ys : List Event) :
    sendsTo k (xs ++ ys) = sendsTo k xs ++ sendsTo k ys := by
  induction xs with
  | nil => rfl
  | cons x xs ih =>
    cases x with
    | send k2 d r =>
      simp only [List.cons_append, sendsTo]
      split <;> simp [ih]
    | _ => simpa [sendsTo] using ih

theorem recipients_append (xs ys : List Event) :
    recipients (xs ++ ys) = recipients xs ++ recipients ys := by
  induction xs with
  | nil => rfl
  | cons x xs ih => cases x <;> simp [recipients, ih]

theorem closed_append (xs ys : List Event) :
    closed (xs ++ ys) = closed xs ++ closed ys := by
  induction xs with
  | nil => rfl
  | cons x xs ih => cases x <;> simp [closed, ih]

/-- The sends of the broadcast loop go, in registry order, to the entries whose socket is
valid and differs from the sender's. -/
theorem recipients_broadcastLoop (F : List Nat) (k : SocketType) (o : Nat → Int)
    (i : Nat) (cs : List Client) :
    recipients (broadcastLoop F k o i cs) =
      sockets (cs.filter (fun c => decide (c.socket ≠ k ∧ c.socket ≠ INVALID_SOCKET_HANDLE))) := by
  induction cs generalizing i with
  | nil => rfl
  | cons c cs ih =>
    simp only [broadcastLoop, recipients_append, ih, List.filter_cons]
    by_cases h : c.socket ≠ k ∧ c.socket ≠ INVALID_SOCKET_HANDLE
    · simp [h, recipients, sockets]
    · simp [h, recipients, sockets]

/-- The payloads the broadcast loop sends to one socket: one copy of the frame per entry
that holds this socket, provided the socket is valid and is not the sender's. -/
theorem sendsTo_broadcastLoop (F : List Nat) (k t : SocketType) (o : Nat → Int)
    (i : Nat) (cs : List Client) :
    sendsTo t (broadcastLoop F k o i cs) =
      (cs.filter (fun c => decide (c.socket = t ∧ t ≠ k ∧ t ≠ INVALID_SOCKET_HANDLE))).map
        (fun _ => F) := by
  induction cs generalizing i with
  | nil => rfl
  | cons c cs ih =>
    simp only [broadcastLoop, sendsTo_append, ih, List.filter_cons]
    by_cases h1 : c.socket = t
    · subst h1
      by_cases h : c.socket ≠ k ∧ c.socket ≠ INVALID_SOCKET_HANDLE
      · simp [h, sendsTo]
      · have h2 : ¬ (c.socket = c.socket ∧ c.socket ≠ k ∧ c.socket ≠ INVALID_SOCKET_HANDLE) :=
          fun hh => h hh.2
        simp [h, h2, sendsTo]
    · have h2 : ¬ (c.socket = t ∧ t ≠ k ∧ t ≠ INVALID_SOCKET_HANDLE) := fun hh => h1 hh.1
      by_cases h : c.socket ≠ k ∧ c.socket ≠ INVALID_SOCKET_HANDLE
      · simp [h, h1, h2, sendsTo]
      · simp [h, h2, sendsTo]

/-- The broadcast loop issues sends only. -/
theorem broadcastLoop_no_log (F : List Nat) (k : SocketType) (o : Nat → Int)
    (i : Nat) (cs : List Client) :
    ∀ e ∈ broadcastLoop F k o i cs, e.isLog = false ∧ closed [e] = [] := by
  induction cs generalizing i with
  | nil => intro e he; cases he
  | cons c cs ih =>
    intro e he
    simp only [broadcastLoop, List.mem_append] at he
    rcases he with he | he
    · split at he
      · simp only [List.mem_singleton] at he
        subst he
        exact ⟨rfl, rfl⟩
      · cases he
    · exact ih (i + 1) e he

/-- In a list whose images under `f` are pairwise distinct, the members with the image of
`e` are `e` alone. -/
theorem filter_eq_singleton_of_nodup {α β : Type} [DecidableEq β] (f : α → β)
    (l : List α) (e : α) (hn : (l.map f).Nodup) (he : e ∈ l) :
    l.filter (fun c => decide (f c = f e)) = [e] := by
  induction l with
  | nil => cases he
  | cons a l ih =>
    rw [List.map_cons, List.nodup_cons] at hn
    rw [List.filter_cons]
    rcases List.mem_cons.mp he with h | h
    · subst h
      have hnone : l.filter (fun c => decide (f c = f e)) = [] := by
        rw [List.filter_eq_nil_iff]
        intro c hc hfc
        exact hn.1 (by
          have : f c = f e := by simpa using hfc
          rw [← this]; exact List.mem_map_of_mem f hc)
      simp [hnone]
    · have hne : f a ≠ f e := fun hh => hn.1 (by rw [hh]; exact List.mem_map_of_mem f h)
      simp [hne, ih hn.2 h]

/-- Entries of a registry with pairwise distinct sockets are determined by their socket. -/
theorem eq_of_socket_eq {cs : List Client} (hn : (sockets cs).Nodup) {a b : Client}
    (ha : a ∈ cs) (hb : b ∈ cs) (h : a.socket = b.socket) : a = b :=
  List.inj_on_of_nodup_map hn ha hb h

/-! ## C1: a broadcast reaches every other client once and never the sender -/

/-- C1: in a registry whose entries hold pairwise distinct, valid connections, a broadcast
of frame `F` by a registered sender `C` issues exactly one send, carrying `F`, to the
connection of every other registered entry and no send to the connection of `C`; the
sends issued are, in registry order, those to the other entries and nothing else. -/
theorem broadcastAudio_one_copy_to_each_other (s : VoiceServer) (C : Client) (F : List Nat)
    (send_ret : Nat → Int) (hd : DistinctConnections s) (hv : ValidConnections s)
    (hC : C ∈ s.clients) :
    (∀ e ∈ s.clients, e ≠ C →
        sendsTo e.socket (broadcastAudio s F C.socket send_ret).2 = [F]) ∧
    sendsTo C.socket (broadcastAudio s F C.socket send_ret).2 = [] ∧
    recipients (broadcastAudio s F C.socket send_ret).2 =
      sockets (s.clients.filter (fun e => decide (e ≠ C))) := by
  refine ⟨?_, ?_, ?_⟩
  · intro e he hne
    have hsock : e.socket ≠ C.socket := fun h => hne (eq_of_socket_eq hd he hC h)
    have hval : e.socket ≠ INVALID_SOCKET_HANDLE := hv e he
    simp only [broadcastAudio, sendsTo_broadcastLoop]
    have hfil : s.clients.filter
          (fun c => decide (c.socket = e.socket ∧ e.socket ≠ C.socket ∧
            e.socket ≠ INVALID_SOCKET_HANDLE)) =
        s.clients.filter (fun c => decide (c.socket = e.socket)) := by
      apply List.filter_congr
      intro c _
      simp [hsock, hval]
    rw [hfil, filter_eq_singleton_of_nodup Client.socket s.clients e hd he]
    rfl
  · simp only [broadcastAudio, sendsTo_broadcastLoop]
    have hfil : s.clients.filter
          (fun c => decide (c.socket = C.socket ∧ C.socket ≠ C.socket ∧
            C.socket ≠ INVALID_SOCKET_HANDLE)) = [] := by
      rw [List.filter_eq_nil_iff]
      intro c _
      simp
    rw [hfil]
    rfl
  · simp only [broadcastAudio, recipients_broadcastLoop]
    congr 1
    apply List.filter_congr
    intro c hc
    have hval : c.socket ≠ INVALID_SOCKET_HANDLE := hv c hc
    have hiff : c.socket ≠ C.socket ↔ c ≠ C :=
      ⟨fun h hh => h (by rw [hh]), fun h hh => h (eq_of_socket_eq hd hc hC hh)⟩
    simp [hval, hiff]

/-- Witness for C1: with A, B, C registered, a broadcast by A of the frame `[1, 2]` sends
it once to B and once to C and not to A. -/
theorem broadcastAudio_one_copy_to_each_other_witness :
    DistinctConnections serverABC ∧ ValidConnections serverABC ∧
    clientA ∈ serverABC.clients ∧
    sendsTo clientB.socket (broadcastAudio serverABC [1, 2] clientA.socket (fun _ => 2)).2
      = [[1, 2]] ∧
    sendsTo clientA.socket (broadcastAudio serverABC [1, 2] clientA.socket (fun _ => 2)).2
      = [] :=
  have h := broadcastAudio_one_copy_to_each_other serverABC clientA [1, 2] (fun _ => 2)
    (by decide) (by decide) (by decide)
  ⟨by decide, by decide, by decide, h.1 clientB (by decide) (by decide), h.2.1⟩

/-! ## C2: what a relay iteration forwards -/

/-- A well-formed read of `n > 0` bytes stores exactly the delivered bytes. -/
theorem stored_eq_bytes (r : RecvResult) (hlen : (r.bytes.length : Int) = r.ret) :
    r.stored = r.bytes := by
  unfold RecvResult.stored
  apply List.take_of_length_le
  omega

/-- The audio buffer holds 4096 bytes when `handleClient` starts. -/
theorem initialAudioBuffer_length : initialAudioBuffer.length = AUDIO_BUFFER_BYTES :=
  List.length_replicate _ _

/-- A read that fits the buffer leaves the buffer length unchanged. -/
theorem recvInto_length (buf : List Nat) (r : RecvResult)
    (h : r.stored.length ≤ buf.length) : (recvInto buf r).length = buf.length := by
  simp only [recvInto, List.length_append, List.length_drop]
  omega

/-- Every send of the broadcast loop carries the frame it was given. -/
theorem broadcastLoop_payload (F : List Nat) (k : SocketType) (o : Nat → Int)
    (i : Nat) (cs : List Client) :
    ∀ e ∈ broadcastLoop F k o i cs, ∃ t r, e = Event.send t F r := by
  induction cs generalizing i with
  | nil => intro e he; cases he
  | cons c cs ih =>
    intro e he
    simp only [broadcastLoop, List.mem_append] at he
    rcases he with he | he
    · split at he
      · simp only [List.mem_singleton] at he
        exact ⟨c.socket, o i, he⟩
      · cases he
    · exact ih (i + 1) e he

/-- One iteration of the relay loop whose read succeeds: the broadcast of the buffer
contents, followed by the rest of the loop. -/
theorem relayLoop_step (client : Client) (s : VoiceServer) (buf : List Nat) (i : RelayInput)
    (rest : List RelayInput) (hrun : s.is_running = true) (hpos : 0 < i.recv.ret) :
    relayLoop client s buf (i :: rest) =
      (relayLoop client s (recvInto buf i.recv) rest).map (fun r =>
        (r.1, r.2.1,
          (broadcastAudio s (recvInto buf i.recv) client.socket i.send_ret).2 ++ r.2.2)) := by
  have hnot : ¬ i.recv.ret ≤ 0 := not_le.mpr hpos
  simp only [relayLoop, hrun, hnot, if_true, if_false, broadcastAudio]
  cases relayLoop client s (recvInto buf i.recv) rest with
  | none => rfl
  | some r => rfl

/-- Counterexample to C2: A's relay reads the 4 bytes `1, 2, 3, 4` into the zeroed buffer;
B is sent the buffer contents, 4096 bytes, not the 4 bytes read. -/
theorem relay_short_read_sends_whole_buffer :
    (handleClient serverABC clientA
        [⟨⟨4, [1, 2, 3, 4]⟩, fun _ => 4096⟩, ⟨⟨0, []⟩, fun _ => 0⟩]).map
      (fun r => sendsTo clientB.socket r.trace) =
        some [recvInto initialAudioBuffer ⟨4, [1, 2, 3, 4]⟩] ∧
    (recvInto initialAudioBuffer ⟨4, [1, 2, 3, 4]⟩).length = 4096 ∧
    (handleClient serverABC clientA
        [⟨⟨4, [1, 2, 3, 4]⟩, fun _ => 4096⟩, ⟨⟨0, []⟩, fun _ => 0⟩]).map
      (fun r => sendsTo clientB.socket r.trace) ≠ some [[1, 2, 3, 4]] := by
  refine ⟨by rfl, ?_, by decide⟩
  rw [recvInto_length _ _ (by rw [initialAudioBuffer_length]; decide),
    initialAudioBuffer_length]
  rfl

/-- C2 (amended): for a read in the relay loop that returns `n > 0` bytes, with `n` at most
the 4096 bytes of the buffer, the following broadcast writes the whole buffer to each
recipient: a send is issued to every entry whose socket is valid and is not the sender's
(and to no other socket), every send carries the 4096 bytes of the buffer, whose first `n`
are the bytes just read and whose remaining bytes are what the buffer held before the
read.  What is written equals what was read exactly when `n = 4096`. -/
theorem relay_forwards_whole_buffer (client : Client) (s : VoiceServer) (buf : List Nat)
    (i : RelayInput) (rest : List RelayInput) (hrun : s.is_running = true)
    (hbuf : buf.length = AUDIO_BUFFER_BYTES) (hpos : 0 < i.recv.ret)
    (hcap : i.recv.ret ≤ AUDIO_BUFFER_BYTES)
    (hlen : (i.recv.bytes.length : Int) = i.recv.ret) :
    relayLoop client s buf (i :: rest) =
      (relayLoop client s (recvInto buf i.recv) rest).map (fun r =>
        (r.1, r.2.1,
          (broadcastAudio s (recvInto buf i.recv) client.socket i.send_ret).2 ++ r.2.2)) ∧
    recipients (broadcastAudio s (recvInto buf i.recv) client.socket i.send_ret).2 =
      sockets (s.clients.filter (fun c =>
        decide (c.socket ≠ client.socket ∧ c.socket ≠ INVALID_SOCKET_HANDLE))) ∧
    (∀ t : SocketType,
      sendsTo t (broadcastAudio s (recvInto buf i.recv) client.socket i.send_ret).2 =
        (s.clients.filter (fun c =>
          decide (c.socket = t ∧ t ≠ client.socket ∧ t ≠ INVALID_SOCKET_HANDLE))).map
          (fun _ => recvInto buf i.recv)) ∧
    (∀ e ∈ s.clients, e.socket ≠ client.socket → e.socket ≠ INVALID_SOCKET_HANDLE →
      recvInto buf i.recv ∈
        sendsTo e.socket
          (broadcastAudio s (recvInto buf i.recv) client.socket i.send_ret).2) ∧
    (∀ e ∈ (broadcastAudio s (recvInto buf i.recv) client.socket i.send_ret).2,
        ∃ t r, e = Event.send t (recvInto buf i.recv) r) ∧
    (recvInto buf i.recv).length = AUDIO_BUFFER_BYTES ∧
    (recvInto buf i.recv).take i.recv.ret.toNat = i.recv.bytes ∧
    (recvInto buf i.recv).drop i.recv.ret.toNat = buf.drop i.recv.ret.toNat ∧
    (recvInto buf i.recv = i.recv.bytes ↔ i.recv.ret = AUDIO_BUFFER_BYTES) := by
  have hst : i.recv.stored = i.recv.bytes := stored_eq_bytes i.recv hlen
  have hn : i.recv.bytes.length = i.recv.ret.toNat := by omega
  have hle : i.recv.bytes.length ≤ buf.length := by omega
  have hlen2 : (recvInto buf i.recv).length = AUDIO_BUFFER_BYTES := by
    simp only [recvInto, hst, List.length_append, List.length_drop]
    omega
  refine ⟨relayLoop_step client s buf i rest hrun hpos, ?_, ?_, ?_, ?_, hlen2, ?_, ?_, ?_⟩
  · simp only [broadcastAudio, recipients_broadcastLoop]
  · intro t
    simp only [broadcastAudio, sendsTo_broadcastLoop]
  · intro e he hs hv
    simp only [broadcastAudio, sendsTo_broadcastLoop]
    exact List.mem_map.mpr ⟨e, List.mem_filter.mpr ⟨he, by simp [hs, hv]⟩, rfl⟩
  · exact broadcastLoop_payload _ _ _ _ _
  · simp only [recvInto, hst, ← hn]
    simp
  · simp only [recvInto, hst, ← hn]
    simp
  · constructor
    · intro h
      have h2 := congrArg List.length h
      rw [hlen2] at h2
      omega
    · intro h
      have hfull : buf.length ≤ i.recv.bytes.length := by omega
      simp only [recvInto, hst]
      rw [List.drop_of_length_le hfull]
      simp

/-- Witness for C2 (amended): A's relay on the registry of A, B and C reads the 4 bytes
`1, 2, 3, 4` into the zeroed buffer.  Sends go to B and C, B is sent the buffer, and the
buffer has 4096 bytes of which the first four are the bytes read. -/
theorem relay_forwards_whole_buffer_witness :
    recipients (broadcastAudio serverABC (recvInto initialAudioBuffer ⟨4, [1, 2, 3, 4]⟩)
      clientA.socket (fun _ => 4096)).2 = [6, 7] ∧
    recvInto initialAudioBuffer ⟨4, [1, 2, 3, 4]⟩ ∈
      sendsTo clientB.socket
        (broadcastAudio serverABC (recvInto initialAudioBuffer ⟨4, [1, 2, 3, 4]⟩)
          clientA.socket (fun _ => 4096)).2 ∧
    (recvInto initialAudioBuffer ⟨4, [1, 2, 3, 4]⟩).length = AUDIO_BUFFER_BYTES ∧
    (recvInto initialAudioBuffer ⟨4, [1, 2, 3, 4]⟩).take 4 = [1, 2, 3, 4] :=
  have h := relay_forwards_whole_buffer clientA serverABC initialAudioBuffer
    ⟨⟨4, [1, 2, 3, 4]⟩, fun _ => 4096⟩ [] rfl initialAudioBuffer_length
    (by decide) (by decide) (by decide)
  ⟨h.2.1.trans (by decide), h.2.2.2.1 clientB (by decide) (by decide) (by decide),
   h.2.2.2.2.2.1, h.2.2.2.2.2.2.1⟩

/-! ## C4, C5: the accept loop -/

/-- A failed handshake on an accepted connection closes it and leaves the state unchanged. -/
theorem acceptIteration_of_failed (s : VoiceServer) (i : AcceptInput)
    (hs : i.client_socket ≠ INVALID_SOCKET_HANDLE) (hr : i.handshake.ret ≤ 0) :
    acceptIteration s i = (s, [Event.close i.client_socket]) := by
  have hnot : ¬ 0 < i.handshake.ret := not_lt.mpr hr
  simp only [acceptIteration, hs, hnot, if_false]

/-- A successful handshake on an accepted connection appends the new entry. -/
theorem acceptIteration_of_succeeded (s : VoiceServer) (i : AcceptInput)
    (hs : i.client_socket ≠ INVALID_SOCKET_HANDLE) (hr : 0 < i.handshake.ret) :
    acceptIteration s i =
      ({ s with clients := s.clients ++ [i.entry] },
       [Event.spawn i.ptr, Event.cout "Client connected: " i.entry.name]) := by
  simp only [acceptIteration, hs, hr, if_true, if_false, AcceptInput.entry]

/-- The accept-loop body never changes `is_running`. -/
theorem acceptIteration_is_running (s : VoiceServer) (i : AcceptInput) :
    (acceptIteration s i).1.is_running = s.is_running := by
  unfold acceptIteration
  split
  · rfl
  · split <;> rfl

/-- The registry after one accept-loop iteration: the new entry is appended when the
iteration obtained a connection and a handshake of at least one byte, and nothing changes
otherwise. -/
theorem acceptIteration_clients (s : VoiceServer) (i : AcceptInput) :
    (acceptIteration s i).1.clients =
      s.clients ++ (if i.handshakeSucceeded then [i.entry] else []) := by
  by_cases hs : i.client_socket = INVALID_SOCKET_HANDLE
  · simp [acceptIteration, hs, AcceptInput.handshakeSucceeded]
  · by_cases hr : 0 < i.handshake.ret
    · rw [acceptIteration_of_succeeded s i hs hr]
      simp [AcceptInput.handshakeSucceeded, hs, hr]
    · rw [acceptIteration_of_failed s i hs (not_lt.mp hr)]
      simp [AcceptInput.handshakeSucceeded, hr]

/-- While the server is running, the accept loop appends to the registry the entries of the
iterations whose handshake succeeded, in order. -/
theorem acceptClients_clients (script : List AcceptInput) (s : VoiceServer)
    (hrun : s.is_running = true) :
    (acceptClients s script).1.clients =
      s.clients ++ (script.filter AcceptInput.handshakeSucceeded).map AcceptInput.entry := by
  induction script generalizing s with
  | nil => simp [acceptClients]
  | cons i rest ih =>
    have hrun2 : (acceptIteration s i).1.is_running = true := by
      rw [acceptIteration_is_running, hrun]
    simp only [acceptClients, hrun, if_true, ih _ hrun2, acceptIteration_clients,
      List.filter_cons]
    cases i.handshakeSucceeded <;> simp

/-- C4: in an iteration of the accept loop with a successfully accepted connection, a
handshake read that returns 0 or a negative value closes the connection and leaves the
registry (and the whole state) unchanged, and a read that returns more than 0 bytes appends
exactly one entry, holding that connection, after the unchanged earlier entries.  Hence a
running accept loop started on the empty registry holds, after any sequence of connection
attempts, exactly the entries of the connections whose handshake succeeded, in order: its
size is their number. -/
theorem accept_registers_each_successful_handshake_once :
    (∀ (s : VoiceServer) (i : AcceptInput), i.client_socket ≠ INVALID_SOCKET_HANDLE →
      i.handshake.ret ≤ 0 → acceptIteration s i = (s, [Event.close i.client_socket])) ∧
    (∀ (s : VoiceServer) (i : AcceptInput), i.client_socket ≠ INVALID_SOCKET_HANDLE →
      0 < i.handshake.ret →
        (acceptIteration s i).1.clients = s.clients ++ [i.entry] ∧
        i.entry.socket = i.client_socket ∧
        closed (acceptIteration s i).2 = []) ∧
    (∀ (s : VoiceServer) (script : List AcceptInput), s.is_running = true →
      s.clients = [] →
        (acceptClients s script).1.clients =
          (script.filter AcceptInput.handshakeSucceeded).map AcceptInput.entry ∧
        sockets (acceptClients s script).1.clients =
          (script.filter AcceptInput.handshakeSucceeded).map AcceptInput.client_socket ∧
        (acceptClients s script).1.clients.length =
          (script.filter AcceptInput.handshakeSucceeded).length) := by
  refine ⟨acceptIteration_of_failed, ?_, ?_⟩
  · intro s i hs hr
    rw [acceptIteration_of_succeeded s i hs hr]
    exact ⟨rfl, rfl, rfl⟩
  · intro s script hrun hempty
    have h := acceptClients_clients script s hrun
    rw [hempty, List.nil_append] at h
    refine ⟨h, ?_, ?_⟩
    · rw [h, sockets, List.map_map]
      rfl
    · rw [h, List.length_map]

/-- Witness for C4: three connections reach the empty running server; the second one closes
before sending a name.  The registry then holds the first and the third. -/
theorem accept_registers_each_successful_handshake_once_witness :
    acceptIteration serverEmpty ⟨8, 500, ⟨0, []⟩⟩ = (serverEmpty, [Event.close 8]) ∧
    (acceptIteration serverEmpty ⟨5, 100, ⟨1, [65]⟩⟩).1.clients = [clientA] ∧
    sockets (acceptClients serverEmpty
      [⟨5, 100, ⟨1, [65]⟩⟩, ⟨8, 500, ⟨0, []⟩⟩, ⟨7, 300, ⟨1, [67]⟩⟩]).1.clients = [5, 7] :=
  have h := accept_registers_each_successful_handshake_once
  ⟨h.1 serverEmpty ⟨8, 500, ⟨0, []⟩⟩ (by decide) (by decide),
   (h.2.1 serverEmpty ⟨5, 100, ⟨1, [65]⟩⟩ (by decide) (by decide)).1,
   (h.2.2 serverEmpty [⟨5, 100, ⟨1, [65]⟩⟩, ⟨8, 500, ⟨0, []⟩⟩, ⟨7, 300, ⟨1, [67]⟩⟩]
      rfl rfl).2.1⟩

/-- The terminating NUL written after the received bytes does not change the name. -/
theorem cString_append_nul (l : List Nat) : cString (l ++ [0]) = cString l := by
  induction l with
  | nil => rfl
  | cons b l ih =>
    unfold cString at ih ⊢
    by_cases hb : b = 0
    · simp [List.takeWhile_cons, hb]
    · simp [List.takeWhile_cons, hb, ih]

/-- A name is empty exactly when the bytes it is read from are empty or begin with NUL. -/
theorem cString_eq_nil_iff (l : List Nat) : cString l = [] ↔ l = [] ∨ l.head? = some 0 := by
  cases l with
  | nil => simp [cString]
  | cons b l =>
    by_cases hb : b = 0
    · simp [cString, List.takeWhile_cons, hb]
    · simp [cString, List.takeWhile_cons, hb]

/-- Counterexample to C5: the identity message is the single byte NUL.  The display name
derived from it is empty, yet the connection is not closed and the entry is registered. -/
theorem handshake_with_empty_name_is_registered :
    acceptIteration serverEmpty ⟨9, 400, ⟨1, [0]⟩⟩ =
      ({ serverEmpty with
          clients := [{ ptr := 400, socket := 9, name := [], receive_thread := true }] },
       [Event.spawn 400, Event.cout "Client connected: " []]) ∧
    cString ((RecvResult.mk 1 [0]).stored ++ [0]) = [] := by
  constructor <;> decide

/-- C5 (amended): a handshake on an accepted connection is rejected exactly when the
identity read returns 0 or a negative value: then the connection is closed and no entry is
registered.  A read of more than 0 bytes registers an entry and does not close the
connection; its name is the bytes received before the first NUL byte, and this name is
empty exactly when the stored message begins with a NUL byte (or is empty). -/
theorem handshake_rejected_only_without_bytes (s : VoiceServer) (i : AcceptInput)
    (hs : i.client_socket ≠ INVALID_SOCKET_HANDLE) :
    (i.handshake.ret ≤ 0 → acceptIteration s i = (s, [Event.close i.client_socket])) ∧
    (0 < i.handshake.ret →
      (acceptIteration s i).1.clients = s.clients ++ [i.entry] ∧
      closed (acceptIteration s i).2 = []) ∧
    i.entry.name = cString i.handshake.stored ∧
    (i.entry.name = [] ↔ i.handshake.stored = [] ∨ i.handshake.stored.head? = some 0) := by
  have hname : i.entry.name = cString i.handshake.stored := cString_append_nul _
  refine ⟨acceptIteration_of_failed s i hs, ?_, hname, ?_⟩
  · intro hr
    rw [acceptIteration_of_succeeded s i hs hr]
    exact ⟨rfl, rfl⟩
  · rw [hname]
    exact cString_eq_nil_iff _

/-- Witness for C5 (amended): the one-byte message NUL on socket 9 is registered with the
empty name, and nothing is closed. -/
theorem handshake_rejected_only_without_bytes_witness :
    (9 : SocketType) ≠ INVALID_SOCKET_HANDLE ∧
    (acceptIteration serverEmpty ⟨9, 400, ⟨1, [0]⟩⟩).1.clients =
      serverEmpty.clients ++ [(AcceptInput.mk 9 400 ⟨1, [0]⟩).entry] ∧
    closed (acceptIteration serverEmpty ⟨9, 400, ⟨1, [0]⟩⟩).2 = [] :=
  ⟨by decide,
   (handshake_rejected_only_without_bytes serverEmpty ⟨9, 400, ⟨1, [0]⟩⟩ (by decide)).2.1
     (by decide)⟩

/-! ## Removal and shutdown: where the process terminates -/

/-- An address that no entry has: the removal loop changes nothing and issues no effect. -/
theorem removeLoop_of_not_mem (p : Nat) (cs : List Client) (h : p ∉ pointers cs) :
    removeLoop p cs = Run.returned cs [] := by
  induction cs with
  | nil => rfl
  | cons c cs ih =>
    simp only [pointers, List.map_cons, List.mem_cons, not_or] at h
    have hne : ¬ c.ptr = p := fun hh => h.1 hh.symm
    have hrec := ih h.2
    simp only [removeLoop, hne, if_false, hrec]

/-- With pairwise distinct addresses, the removal loop called for a registered entry whose
receive thread is joinable reports the disconnect, reaches the self-join and terminates:
no socket is closed and no entry is erased. -/
theorem removeLoop_of_joinable (B : Client) (cs : List Client) (hn : (pointers cs).Nodup)
    (hB : B ∈ cs) (hj : B.receive_thread = true) :
    removeLoop B.ptr cs =
      Run.terminated [Event.cout "Client disconnected: " B.name, Event.join B.ptr] := by
  induction cs with
  | nil => cases hB
  | cons c cs ih =>
    simp only [pointers, List.map_cons, List.nodup_cons] at hn
    by_cases hp : c.ptr = B.ptr
    · have hcB : c = B := by
        rcases List.mem_cons.mp hB with h | h
        · exact h.symm
        · exact absurd (by rw [hp]; exact List.mem_map_of_mem Client.ptr h) hn.1
      subst hcB
      simp only [removeLoop, if_true, hj]
    · have hcB : c ≠ B := fun hh => hp (by rw [hh])
      have hB2 : B ∈ cs := by
        rcases List.mem_cons.mp hB with h | h
        · exact absurd h.symm hcB
        · exact h
      have hrec := ih hn.2 hB2
      simp only [removeLoop, hp, if_false, hrec]

/-- Every entry the accept loop registers holds a joinable receive thread. -/
theorem acceptClients_joinable (script : List AcceptInput) (s : VoiceServer)
    (h : ∀ c ∈ s.clients, c.receive_thread = true) :
    ∀ c ∈ (acceptClients s script).1.clients, c.receive_thread = true := by
  induction script generalizing s with
  | nil => exact h
  | cons i rest ih =>
    cases hrun : s.is_running
    · simpa [acceptClients, hrun] using h
    · simp only [acceptClients, hrun, if_true]
      apply ih
      intro c hc
      rw [acceptIteration_clients] at hc
      rcases List.mem_append.mp hc with hc | hc
      · exact h c hc
      · split at hc
        · simp only [List.mem_singleton] at hc
          rw [hc]
          rfl
        · cases hc

/-- With a registered entry whose receive thread is joinable, `stop` closes the sockets and
terminates in `clients.clear()`. -/
theorem stop_of_joinable (s : VoiceServer) (c : Client) (hc : c ∈ s.clients)
    (hj : c.receive_thread = true) :
    stop s = Run.terminated (closeIfValid s.server_socket ++ closeClients s.clients) := by
  have hany : s.clients.any (fun c => c.receive_thread) = true :=
    List.any_eq_true.mpr ⟨c, hc, hj⟩
  simp only [stop, hany, if_true]

/-- C3 (defect of the code): A, B and C were registered by the accept loop.
`removeClient` for the registered handle of B reports the disconnect, joins the calling
thread with itself and terminates the process; it returns no registry that a second call
could leave unchanged.  A call for the unknown handle 999 is a no-op. -/
theorem removeClient_of_registered_handle_terminates :
    (acceptClients serverEmpty connectABC).1 = serverABC ∧
    removeClient serverABC clientB.ptr =
      Run.terminated [Event.cout "Client disconnected: " [66], Event.join 200] ∧
    removeClient serverABC 999 = Run.returned serverABC [] := by
  decide

/-! ## C6: shutdown -/

/-- C6 (defect of the code): `stop` on the server with A, B and C registered
closes the listening socket and the three connections, one close each, and terminates in
`clients.clear()`; it does not return, so no state with an empty registry is left. -/
theorem stop_with_registered_clients_terminates :
    stop serverABC =
      Run.terminated [Event.close 3, Event.close 5, Event.close 6, Event.close 7] ∧
    ∀ (s1 : VoiceServer) (tr : List Event), stop serverABC ≠ Run.returned s1 tr := by
  have h : stop serverABC =
      Run.terminated [Event.close 3, Event.close 5, Event.close 6, Event.close 7] := by
    decide
  refine ⟨h, ?_⟩
  intro s1 tr hh
  rw [h] at hh
  cases hh

/-! ## C7: registration and shutdown -/

/-- The relay loop never changes the server state. -/
theorem relayLoop_state (client : Client) (script : List RelayInput) (s : VoiceServer)
    (buf : List Nat) (r : VoiceServer × List Nat × List Event)
    (h : relayLoop client s buf script = some r) : r.1 = s := by
  induction script generalizing buf r with
  | nil =>
    cases hrun : s.is_running
    · simp only [relayLoop, hrun] at h
      cases h
      rfl
    · simp [relayLoop, hrun] at h
  | cons i rest ih =>
    cases hrun : s.is_running
    · simp only [relayLoop, hrun] at h
      cases h
      rfl
    · by_cases hr : i.recv.ret ≤ 0
      · simp only [relayLoop, hrun, hr, if_true] at h
        cases h
        rfl
      · rw [relayLoop_step client s buf i rest hrun (not_le.mp hr)] at h
        cases hrec : relayLoop client s (recvInto buf i.recv) rest with
        | none => rw [hrec] at h; cases h
        | some r2 =>
          rw [hrec] at h
          simp only [Option.map_some', Option.some.injEq] at h
          rw [← h]
          exact ih (recvInto buf i.recv) r2 hrec

/-- For a registered client whose receive thread is joinable, in a registry of owning
pointers, `handleClient` never returns: whenever its relay loop exits, `removeClient`
terminates the process at the self-join, after the disconnect line and before any close. -/
theorem handleClient_of_joinable (s : VoiceServer) (c : Client) (script : List RelayInput)
    (r : Run VoiceServer) (hu : UniqueOwnership s) (hc : c ∈ s.clients)
    (hj : c.receive_thread = true) (h : handleClient s c script = some r) :
    ∃ (buf : List Nat) (ev : List Event),
      relayLoop c s initialAudioBuffer script = some (s, buf, ev) ∧
      r = Run.terminated
        (ev ++ [Event.cout "Client disconnected: " c.name, Event.join c.ptr]) := by
  unfold handleClient at h
  cases hrec : relayLoop c s initialAudioBuffer script with
  | none => rw [hrec] at h; cases h
  | some r1 =>
    obtain ⟨s1, buf, ev⟩ := r1
    have hs1 : s1 = s := relayLoop_state c script s initialAudioBuffer _ hrec
    subst hs1
    rw [hrec] at h
    simp only [Option.some.injEq] at h
    refine ⟨buf, ev, rfl, ?_⟩
    rw [← h]
    simp only [removeClient, removeLoop_of_joinable c s1.clients hu hc hj, Run.after]

/-- C8 (defect of the code): A, B and C were registered by the accept loop and
the read on the connection of B returns 0.  The relay loop of B exits without issuing any
effect, and `handleClient` then reports the disconnect, joins its own thread and terminates
the process: it does not return, the socket of B is not closed and the registry still holds
the entry of B. -/
theorem handleClient_terminates_before_removal :
    (acceptClients serverEmpty connectABC).1.clients = serverABC.clients ∧
    (relayLoop clientB serverABC initialAudioBuffer [⟨⟨0, []⟩, fun _ => 0⟩]).map
      (fun r => (r.1, r.2.2)) = some (serverABC, []) ∧
    handleClient serverABC clientB [⟨⟨0, []⟩, fun _ => 0⟩] =
      some (Run.terminated [Event.cout "Client disconnected: " [66], Event.join 200]) ∧
    (handleClient serverABC clientB [⟨⟨0, []⟩, fun _ => 0⟩]).map
      (fun r => closed r.trace) = some [] := by
  decide

/-! ## C9: a broadcast after a removal -/

/-- C9 (defect of the code): with A, B and C registered in this order by the
accept loop, `removeClient` for B terminates the process at the self-join.  It returns no
registry, so none of size 2, and it closes no socket; the registry still holds three
entries, and a broadcast by A on it still sends to the connection of B. -/
theorem removeClient_of_B_leaves_no_registry :
    (acceptClients serverEmpty connectABC).1.clients = [clientA, clientB, clientC] ∧
    (∀ (s1 : VoiceServer) (tr : List Event),
      removeClient serverABC clientB.ptr ≠ Run.returned s1 tr) ∧
    closed (removeClient serverABC clientB.ptr).trace = [] ∧
    serverABC.clients.length = 3 ∧
    recipients (broadcastAudio serverABC [1, 2] clientA.socket (fun _ => 2)).2 = [6, 7] := by
  have h : removeClient serverABC clientB.ptr =
      Run.terminated [Event.cout "Client disconnected: " [66], Event.join 200] := by
    decide
  refine ⟨by decide, ?_, by rw [h]; rfl, by decide, by decide⟩
  intro s1 tr hh
  rw [h] at hh
  cases hh

/-! ## C10: failed writes -/

/-- Counterexample to C10: A broadcasts the frame `[1, 2]` and both writes fail with -1.
The effects of the broadcast are the two sends alone: nothing is written to `std::cout` or
`std::cerr`. -/
theorem failed_send_is_not_logged :
    (broadcastAudio serverABC [1, 2] clientA.socket (fun _ => -1)).2 =
      [Event.send 6 [1, 2] (-1), Event.send 7 [1, 2] (-1)] ∧
    ∀ e ∈ (broadcastAudio serverABC [1, 2] clientA.socket (fun _ => -1)).2,
      e.isLog = false := by
  decide

/-- C10 (amended): for every registry, sender, frame and every assignment of return values
to the individual sends, a failed write is ignored and not logged (the broadcast writes
nothing to `std::cout` or `std::cerr`), the recipients attempted, and the payload sent to
each socket, are the same as when all writes succeed, the server state with its registry is
unchanged, and the relay loop of the sender goes on with its next read. -/
theorem failed_send_is_ignored (s : VoiceServer) (F : List Nat) (sender : SocketType)
    (send_ret : Nat → Int) :
    (∀ e ∈ (broadcastAudio s F sender send_ret).2, e.isLog = false) ∧
    recipients (broadcastAudio s F sender send_ret).2 =
      recipients (broadcastAudio s F sender (fun _ => (F.length : Int))).2 ∧
    (∀ t : SocketType, sendsTo t (broadcastAudio s F sender send_ret).2 =
      sendsTo t (broadcastAudio s F sender (fun _ => (F.length : Int))).2) ∧
    (broadcastAudio s F sender send_ret).1 = s ∧
    (∀ (client : Client) (buf : List Nat) (i : RelayInput) (rest : List RelayInput),
      s.is_running = true → 0 < i.recv.ret →
        relayLoop client s buf (i :: rest) =
          (relayLoop client s (recvInto buf i.recv) rest).map (fun r =>
            (r.1, r.2.1,
              (broadcastAudio s (recvInto buf i.recv) client.socket i.send_ret).2
                ++ r.2.2))) := by
  refine ⟨?_, ?_, ?_, rfl, ?_⟩
  · intro e he
    exact (broadcastLoop_no_log F sender send_ret 0 s.clients e he).1
  · simp only [broadcastAudio, recipients_broadcastLoop]
  · intro t
    simp only [broadcastAudio, sendsTo_broadcastLoop]
  · intro client buf i rest hrun hpos
    exact relayLoop_step client s buf i rest hrun hpos

/-- Witness for C10 (amended): A's relay reads a frame whose forwarding fails for every
recipient, then a second frame, then 0 bytes.  Both frames are attempted to B and C. -/
theorem failed_send_is_ignored_witness :
    recipients (broadcastAudio serverABC [1, 2] clientA.socket (fun _ => -1)).2 =
      recipients (broadcastAudio serverABC [1, 2] clientA.socket (fun _ => 2)).2 ∧
    (broadcastAudio serverABC [1, 2] clientA.socket (fun _ => -1)).1 = serverABC ∧
    (handleClient serverABC clientA
        [⟨⟨1, [8]⟩, fun _ => -1⟩, ⟨⟨1, [9]⟩, fun _ => 4096⟩, ⟨⟨0, []⟩, fun _ => 0⟩]).map
      (fun r => recipients r.trace) = some [6, 7, 6, 7] :=
  have h := failed_send_is_ignored serverABC [1, 2] clientA.socket (fun _ => -1)
  ⟨h.2.1, h.2.2.2.1, by decide⟩

end VoiceChat
